import Mathlib

/-!
Verification development for the FinAI paper-trading engine.

Shallow embedding of the order-execution and leveraged-position accounting
core of the repository:

- `backend/services/order_executor_astock.py` (A-share executor),
- `backend/services/order_executor_leverage.py` (leveraged crypto executor),
- `backend/services/scheduler.py` (margin monitor and forced liquidation),
- `backend/services/asset_calculator.py` (position equity valuation).

Modelling conventions.  Python `Decimal` arithmetic is embedded as exact
rational arithmetic (the executors convert every operand through
`Decimal(str(...))` before computing; intermediate `float` round-trips are
ignored).  Database sessions are embedded as explicit state passing: an
execution returns `Except String TradeState`; a raised exception propagates
before `db.commit()`, so the transaction rolls back and the caller keeps the
pre-call state (`applyExec`).  Timestamps are rational numbers measured in
hours, so that `hours_elapsed = now - last_interest_time` directly.  The
`database.models` module and the `services.market_data` price oracle are not
part of the source tree; the crypto fee and leverage constants defined there
are therefore abstract parameters (`CryptoParams`), and the oracle is passed
in as an `Option` of a quote (`none` models both a `None` return and a raised
exception, each of which aborts the execution).
-/

/-- Order side as parsed from the request (`side.upper()` in the source). -/
inductive OrderSide
  | BUY
  | SELL
  | LONG
  | SHORT
deriving DecidableEq, Repr

/-- Direction of an open position (`Position.side`, nullable in the schema). -/
inductive PositionSide
  | LONG
  | SHORT
deriving DecidableEq, Repr

/-- Order lifecycle status. -/
inductive OrderStatus
  | PENDING
  | FILLED
  | REJECTED
  | CANCELLED
deriving DecidableEq, Repr

/-- Order pricing mode. -/
inductive OrderType
  | MARKET
  | LIMIT
deriving DecidableEq, Repr

/-- Account row: the cash, margin and maintenance threshold fields read and
written by the executors and the margin monitor.  The source field
`maintenance_margin_ratio` is embedded as `maintenance_margin_req`. -/
structure Account where
  current_cash : ℚ
  margin_used : ℚ
  maintenance_margin_req : ℚ
deriving DecidableEq, Repr

/-- Position row, identified by (symbol, market) within one account. -/
structure Position where
  symbol : String
  name : String
  market : String
  quantity : ℚ
  available_quantity : ℚ
  avg_cost : ℚ
  leverage : ℤ
  side : Option PositionSide := none
  accumulated_interest : ℚ := 0
  last_interest_time : Option ℚ := none
deriving DecidableEq, Repr

/-- Order row (the fields the execution paths read or write). -/
structure Order where
  symbol : String
  name : String
  market : String
  side : OrderSide
  order_type : OrderType
  price : Option ℚ
  quantity : ℚ
  leverage : ℤ
  filled_quantity : ℚ
  status : OrderStatus
deriving DecidableEq, Repr

/-- Trade row: append-only execution record. -/
structure Trade where
  symbol : String
  market : String
  side : OrderSide
  price : ℚ
  quantity : ℚ
  commission : ℚ
  taker_fee : ℚ
  interest_charged : ℚ
deriving DecidableEq, Repr

/-- The slice of the ledger one executor call touches: the account row plus
its positions, orders and trades. -/
structure TradeState where
  account : Account
  positions : List Position
  orders : List Order
  trades : List Trade
deriving DecidableEq, Repr

/-- Embeds `db.query(Position).filter(account, symbol, market).first()`. -/
def findPos (ps : List Position) (symbol market : String) : Option Position :=
  ps.find? (fun p => p.symbol == symbol && p.market == market)

/-- Embeds the in-place ORM mutation of the row found by `findPos`: every row
keyed by (symbol, market) is replaced by the updated row. -/
def replacePos (ps : List Position) (symbol market : String) (q : Position) :
    List Position :=
  ps.map (fun p => if p.symbol == symbol && p.market == market then q else p)

/-- Transaction semantics of a raised exception: `db.commit()` is never
reached, so the session rolls back and the caller keeps the old state. -/
def applyExec (st : TradeState) (r : Except String TradeState) : TradeState :=
  match r with
  | .ok s => s
  | .error _ => st

/-- True when an execution succeeded (reached `db.commit()`). -/
def execOk (r : Except String TradeState) : Bool :=
  match r with
  | .ok _ => true
  | .error _ => false

theorem execOk_error (e : String) : execOk (.error e) = false := rfl

theorem execOk_ok (s : TradeState) : execOk (.ok s) = true := rfl

theorem applyExec_error (st : TradeState) (e : String) :
    applyExec st (.error e) = st := rfl

/-! ## A-share executor (`order_executor_astock.py`) -/

def ASTOCK_MIN_COMMISSION : ℚ := 5
def ASTOCK_COMMISSION_RATE : ℚ := 3 / 10000
def ASTOCK_STAMP_TAX_RATE : ℚ := 1 / 1000
def ASTOCK_MIN_ORDER_QUANTITY : ℤ := 100
def ASTOCK_LOT_SIZE : ℤ := 100

/-- Embeds `_calc_astock_fee`: commission (both sides, floored at the minimum)
and stamp tax (sell only).  There is no transfer fee in this executor. -/
def _calc_astock_fee (notional : ℚ) (is_sell : Bool) : ℚ × ℚ :=
  (max (notional * ASTOCK_COMMISSION_RATE) ASTOCK_MIN_COMMISSION,
   if is_sell then notional * ASTOCK_STAMP_TAX_RATE else 0)

/-- Embeds `place_and_execute_astock`.  `oracle` is the result of
`get_last_price(symbol, "ASTOCK")` (`none` models a `None` return or a raised
exception).  `price = 0` embeds a falsy Python price argument. -/
def place_and_execute_astock (oracle : Option ℚ) (st : TradeState)
    (symbol name : String) (side : OrderSide) (order_type : OrderType)
    (price : ℚ) (quantity : ℤ) : Except String TradeState :=
  if quantity % ASTOCK_LOT_SIZE ≠ 0 then
    .error "InvalidQuantity: quantity must be multiple of lot size"
  else if quantity < ASTOCK_MIN_ORDER_QUANTITY then
    .error "InvalidQuantity: quantity below minimum"
  else
    match (if order_type = .MARKET ∨ price = 0 then oracle else some price) with
    | none => .error "PriceUnavailable"
    | some exec_price =>
      let notional := exec_price * (quantity : ℚ)
      let is_sell := side = .SELL
      let fees := _calc_astock_fee notional is_sell
      let commission := fees.1
      let stamp_tax := fees.2
      let total_fee := commission + stamp_tax
      let order : Order :=
        { symbol := symbol, name := name, market := "ASTOCK", side := side,
          order_type := order_type, price := some exec_price,
          quantity := (quantity : ℚ), leverage := 1, filled_quantity := 0,
          status := .PENDING }
      let finish : Account → List Position → Except String TradeState :=
        fun acct ps =>
          .ok { account := acct, positions := ps,
                orders := st.orders ++
                  [{ order with
                     filled_quantity := (quantity : ℚ)
                     status := .FILLED }],
                trades := st.trades ++
                  [{ symbol := symbol, market := "ASTOCK", side := side,
                     price := exec_price, quantity := (quantity : ℚ),
                     commission := commission, taker_fee := stamp_tax,
                     interest_charged := 0 }] }
      match side with
      | .BUY =>
        let total_cost := notional + total_fee
        if st.account.current_cash < total_cost then
          .error "InsufficientFunds: not enough cash"
        else
          let acct := { st.account with
                        current_cash := st.account.current_cash - total_cost }
          match findPos st.positions symbol "ASTOCK" with
          | some pos =>
            let old_notional := pos.quantity * pos.avg_cost
            let new_qty := pos.quantity + (quantity : ℚ)
            let new_cost := (old_notional + notional) / new_qty
            let pos2 := { pos with
                          quantity := new_qty
                          available_quantity := new_qty
                          avg_cost := new_cost }
            finish acct (replacePos st.positions symbol "ASTOCK" pos2)
          | none =>
            let pos2 : Position :=
              { symbol := symbol, name := name, market := "ASTOCK",
                quantity := (quantity : ℚ),
                available_quantity := (quantity : ℚ),
                avg_cost := exec_price, leverage := 1 }
            finish acct (st.positions ++ [pos2])
      | .SELL =>
        match findPos st.positions symbol "ASTOCK" with
        | none => .error "InsufficientPosition: nothing to sell"
        | some pos =>
          if pos.available_quantity < (quantity : ℚ) then
            .error "InsufficientPosition: not enough available quantity"
          else
            let cash_gain := notional - total_fee
            let acct := { st.account with
                          current_cash := st.account.current_cash + cash_gain }
            let pos2 := { pos with
                          quantity := pos.quantity - (quantity : ℚ)
                          available_quantity :=
                            pos.available_quantity - (quantity : ℚ) }
            finish acct (replacePos st.positions symbol "ASTOCK" pos2)
      | _ => .error "InvalidSide: must be BUY or SELL"

/-! ## Leveraged crypto executor (`order_executor_leverage.py`) -/

/-- Constants imported from `database.models` (module not present in the
source tree): the taker fee rate, the hourly borrow interest rate, the
leverage cap and the minimum order size of the CRYPTO market. -/
structure CryptoParams where
  taker_fee_rate : ℚ
  interest_rate_hourly : ℚ
  max_leverage : ℤ
  min_order_quantity : ℚ
deriving DecidableEq, Repr

/-- Embeds `_calc_crypto_fee` (the `leverage` argument is unused in the
source as well). -/
def _calc_crypto_fee (params : CryptoParams) (notional : ℚ) : ℚ :=
  notional * params.taker_fee_rate

/-- Embeds Python `int(...)` on a `Decimal`: truncation toward zero. -/
def int_trunc (x : ℚ) : ℤ :=
  if 0 ≤ x then Int.floor x else -Int.floor (-x)

/-- Embeds `_calculate_position_interest`: zero when there is no
`last_interest_time` or leverage is at most 1, otherwise borrow interest on
the borrowed fraction of the entry notional for the elapsed hours. -/
def _calculate_position_interest (params : CryptoParams) (now : ℚ)
    (position : Position) : ℚ :=
  match position.last_interest_time with
  | none => 0
  | some last_time =>
    if position.leverage ≤ 1 then 0
    else
      let hours_elapsed := now - last_time
      let borrowed_notional := position.quantity * position.avg_cost *
        ((position.leverage : ℚ) - 1) / (position.leverage : ℚ)
      borrowed_notional * params.interest_rate_hourly * hours_elapsed

/-- Maps an opening order side to the stored position side. -/
def sideToPos : OrderSide → Option PositionSide
  | .LONG => some .LONG
  | .SHORT => some .SHORT
  | _ => none

/-- Embeds the `BUY`/`SELL` (close) branch of `place_and_execute_crypto`,
acting on the account and the looked-up position.  Returns the updated
account, the updated position and the interest charged.  Shared with the
margin monitor liquidation path. -/
def crypto_close (params : CryptoParams) (now : ℚ) (account : Account)
    (posQ : Option Position) (side : OrderSide) (exec_price quantity : ℚ) :
    Except String (Account × Position × ℚ) :=
  match posQ with
  | none => .error "NoPosition: no position to close"
  | some pos =>
    if pos.quantity = 0 then .error "NoPosition: no position to close"
    else
      let notional := exec_price * quantity
      let taker_fee := _calc_crypto_fee params notional
      let interest_charged := _calculate_position_interest params now pos
      if 0 < interest_charged ∧ account.current_cash < interest_charged then
        .error "InsufficientFunds: cannot cover interest payment"
      else
        let pos1 :=
          if 0 < interest_charged then
            { pos with accumulated_interest :=
                         pos.accumulated_interest + interest_charged }
          else pos
        let acct1 :=
          if 0 < interest_charged then
            { account with current_cash :=
                             account.current_cash - interest_charged }
          else account
        if 1 < pos.leverage then
          if (side = .SELL ∧ pos1.side ≠ some .LONG) ∨
             (side = .BUY ∧ pos1.side ≠ some .SHORT) then
            .error "SideMismatch: close side does not match position side"
          else if pos1.quantity < quantity then
            .error "NoPosition: cannot close more than position size"
          else
            let entry_notional := pos1.avg_cost * quantity
            let pnl :=
              if pos1.side = some .LONG then notional - entry_notional
              else entry_notional - notional
            let margin_released := entry_notional / (pos1.leverage : ℚ)
            let net_cash_change := pnl + margin_released - taker_fee
            let acct2 := { acct1 with
                           current_cash := acct1.current_cash + net_cash_change
                           margin_used := acct1.margin_used - margin_released }
            let q2 := pos1.quantity - quantity
            let base := { pos1 with
                          quantity := q2
                          available_quantity :=
                            pos1.available_quantity - quantity }
            let pos2 :=
              if q2 = 0 then
                { base with side := none, leverage := 1,
                            last_interest_time := none }
              else { base with last_interest_time := some now }
            .ok (acct2, pos2, interest_charged)
        else
          if side ≠ .SELL then
            .error "InvalidSide: can only SELL spot positions"
          else if pos1.available_quantity < quantity then
            .error "InsufficientPosition: not enough available quantity"
          else
            let cash_gain := notional - taker_fee
            let acct2 := { acct1 with
                           current_cash := acct1.current_cash + cash_gain }
            let pos2 := { pos1 with
                          quantity := pos1.quantity - quantity
                          available_quantity :=
                            pos1.available_quantity - quantity }
            .ok (acct2, pos2, interest_charged)

/-- Embeds `place_and_execute_crypto`.  `oracle` is the result of
`get_last_price(symbol, "CRYPTO")`; a `LIMIT` order with a truthy price uses
that price, every other case resolves through the oracle. -/
def place_and_execute_crypto (params : CryptoParams) (oracle : Option ℚ)
    (now : ℚ) (st : TradeState) (symbol name : String) (side : OrderSide)
    (order_type : OrderType) (price : Option ℚ) (quantity : ℚ)
    (leverage : ℤ) : Except String TradeState :=
  if leverage < 1 ∨ params.max_leverage < leverage then
    .error "InvalidLeverage: leverage out of range"
  else if quantity < params.min_order_quantity then
    .error "InvalidQuantity: quantity below minimum"
  else
    let priced : Option ℚ :=
      match order_type, price with
      | .LIMIT, some p => if p = 0 then oracle else some p
      | _, _ => oracle
    match priced with
    | none => .error "PriceUnavailable"
    | some exec_price =>
      let notional := exec_price * quantity
      let taker_fee := _calc_crypto_fee params notional
      let order : Order :=
        { symbol := symbol, name := name, market := "CRYPTO", side := side,
          order_type := order_type, price := some exec_price,
          quantity := quantity, leverage := leverage, filled_quantity := 0,
          status := .PENDING }
      let posQ := findPos st.positions symbol "CRYPTO"
      let finish : Account → List Position → ℚ → Except String TradeState :=
        fun acct ps interest =>
          .ok { account := acct, positions := ps,
                orders := st.orders ++
                  [{ order with
                     filled_quantity := quantity
                     status := .FILLED }],
                trades := st.trades ++
                  [{ symbol := symbol, market := "CRYPTO", side := side,
                     price := exec_price, quantity := quantity,
                     commission := taker_fee, taker_fee := taker_fee,
                     interest_charged := interest }] }
      match side with
      | .LONG | .SHORT =>
        let initial_margin := notional / (leverage : ℚ)
        let total_cost := initial_margin + taker_fee
        if st.account.current_cash < total_cost then
          .error "InsufficientFunds: not enough cash"
        else
          let acct1 := { st.account with
                         current_cash := st.account.current_cash - total_cost }
          let acct2 :=
            if 1 < leverage then
              { acct1 with margin_used := acct1.margin_used + initial_margin }
            else acct1
          match posQ with
          | some pos =>
            if 1 < pos.leverage ∧ pos.side ≠ none then
              let interest_charged :=
                _calculate_position_interest params now pos
              if 0 < interest_charged ∧
                 acct2.current_cash < interest_charged then
                .error "InsufficientFunds: cannot cover interest payment"
              else
                let pos1 :=
                  if 0 < interest_charged then
                    { pos with accumulated_interest :=
                                 pos.accumulated_interest + interest_charged }
                  else pos
                let acct3 :=
                  if 0 < interest_charged then
                    { acct2 with current_cash :=
                                   acct2.current_cash - interest_charged }
                  else acct2
                if pos1.side = sideToPos side then
                  let old_notional := pos1.quantity * pos1.avg_cost
                  let new_qty := pos1.quantity + quantity
                  let new_cost := (old_notional + notional) / new_qty
                  let new_lev := int_trunc
                    ((old_notional * (pos1.leverage : ℚ) +
                      notional * (leverage : ℚ)) / (old_notional + notional))
                  let pos2 := { pos1 with
                                quantity := new_qty
                                avg_cost := new_cost
                                leverage := new_lev
                                last_interest_time := some now }
                  finish acct3 (replacePos st.positions symbol "CRYPTO" pos2)
                    interest_charged
                else
                  .error "ConflictingPosition: close existing position first"
            else
              let pos2 := { pos with
                            quantity := quantity
                            available_quantity := quantity
                            avg_cost := exec_price
                            leverage := leverage
                            side := sideToPos side
                            last_interest_time := some now }
              finish acct2 (replacePos st.positions symbol "CRYPTO" pos2) 0
          | none =>
            let pos0 : Position :=
              { symbol := symbol, name := name, market := "CRYPTO",
                quantity := 0, available_quantity := 0, avg_cost := 0,
                leverage := 1 }
            let pos2 := { pos0 with
                          quantity := quantity
                          available_quantity := quantity
                          avg_cost := exec_price
                          leverage := leverage
                          side := sideToPos side
                          last_interest_time := some now }
            finish acct2 (st.positions ++ [pos2]) 0
      | .BUY | .SELL =>
        match crypto_close params now st.account posQ side exec_price
          quantity with
        | .error e => .error e
        | .ok (acct, pos2, interest) =>
          finish acct (replacePos st.positions symbol "CRYPTO" pos2) interest

/-! ## Margin monitor (`scheduler.py`) -/

/-- Embeds the unrealized PnL aggregation loop of
`TaskScheduler._check_account_margin`: positions whose quote is missing or
not positive are skipped; a SHORT position contributes
`quantity * (avg_cost - price)`, every other side contributes
`quantity * (price - avg_cost)`. -/
def monitor_pnl (prices : String → Option ℚ) (positions : List Position) : ℚ :=
  positions.foldl
    (fun acc p =>
      match prices p.symbol with
      | none => acc
      | some price =>
        if price ≤ 0 then acc
        else if p.side = some .SHORT then acc + p.quantity * (p.avg_cost - price)
        else acc + p.quantity * (price - p.avg_cost))
    0

/-- Modelled from the spec: `check_and_execute_order` lives in
`services/order_matching`, a module absent from the source tree; only its
caller `TaskScheduler._liquidate_positions` is available.  Per the spec, the
synthesized MARKET order resolves its price through the Price Oracle (a
missing quote means price unavailable and the order fails) and is routed
through the Execution Engine close path — the `BUY`/`SELL` branch of the
crypto executor (`crypto_close`).  On success the order is marked FILLED
(its price set at fill time) and a Trade is appended; on failure the raised
error propagates to the caller. -/
def check_and_execute_order (params : CryptoParams)
    (prices : String → Option ℚ) (now : ℚ) (st : TradeState) (order : Order) :
    Except String TradeState :=
  match prices order.symbol with
  | none => .error "PriceUnavailable"
  | some exec_price =>
    match crypto_close params now st.account
      (findPos st.positions order.symbol order.market) order.side exec_price
      order.quantity with
    | .error e => .error e
    | .ok (acct, pos2, interest) =>
      .ok { account := acct,
            positions := replacePos st.positions order.symbol order.market pos2,
            orders := st.orders ++
              [{ order with
                 price := some exec_price
                 filled_quantity := order.quantity
                 status := .FILLED }],
            trades := st.trades ++
              [{ symbol := order.symbol, market := order.market,
                 side := order.side, price := exec_price,
                 quantity := order.quantity,
                 commission := _calc_crypto_fee params
                   (exec_price * order.quantity),
                 taker_fee := _calc_crypto_fee params
                   (exec_price * order.quantity),
                 interest_charged := interest }] }

/-- Embeds `TaskScheduler._liquidate_positions`: for every captured position
still holding quantity, synthesize a MARKET order on the side opposite the
position side (SELL closes LONG, anything else is closed by BUY), flush it
PENDING, and execute it.  A failed execution is logged and skipped: the
flushed order stays PENDING and the sweep continues with the next
position. -/
def _liquidate_positions (params : CryptoParams)
    (prices : String → Option ℚ) (now : ℚ) (st : TradeState)
    (positions : List Position) : TradeState :=
  positions.foldl
    (fun s p =>
      match findPos s.positions p.symbol p.market with
      | none => s
      | some cur =>
        if cur.quantity ≤ 0 then s
        else
          let close_side : OrderSide :=
            if cur.side = some .LONG then .SELL else .BUY
          let order : Order :=
            { symbol := cur.symbol, name := cur.name, market := cur.market,
              side := close_side, order_type := .MARKET, price := none,
              quantity := cur.quantity, leverage := 1, filled_quantity := 0,
              status := .PENDING }
          match check_and_execute_order params prices now s order with
          | .ok s2 => s2
          | .error _ => { s with orders := s.orders ++ [order] })
    st

/-- Embeds `TaskScheduler._check_account_margin` for one account: filter the
leveraged open positions, aggregate unrealized PnL over the quotable ones,
compute `equity = cash + pnl`, skip when no margin is used, and force
liquidation of every leveraged position when
`equity / margin_used < maintenance_margin_ratio`. -/
def _check_account_margin (params : CryptoParams)
    (prices : String → Option ℚ) (now : ℚ) (st : TradeState) : TradeState :=
  let positions := st.positions.filter
    (fun p => decide (0 < p.quantity ∧ 1 < p.leverage))
  if positions.isEmpty then st
  else
    let equity := st.account.current_cash + monitor_pnl prices positions
    if st.account.margin_used ≤ 0 then st
    else if equity / st.account.margin_used <
        st.account.maintenance_margin_req then
      _liquidate_positions params prices now st positions
    else st

/-! ## Valuation (`asset_calculator.py`) -/

/-- Embeds the loop body of `calc_positions_market_value`: equity contributed
by one position at a given price.  Leverage values that are not positive are
normalized to 1; a leveraged position contributes margin plus unrealized
PnL, an unleveraged one its full market value. -/
def position_equity (p : Position) (price : ℚ) : ℚ :=
  let leverage : ℚ := if 0 < p.leverage then (p.leverage : ℚ) else 1
  let market_value := p.quantity * price
  if 1 < leverage then
    market_value / leverage + p.quantity * (price - p.avg_cost)
  else market_value

/-- Embeds `calc_positions_market_value`: total position equity over the
positions whose price lookup succeeds (failures are logged and skipped). -/
def calc_positions_market_value (prices : String → Option ℚ)
    (positions : List Position) : ℚ :=
  positions.foldl
    (fun total p =>
      match prices p.symbol with
      | none => total
      | some price => total + position_equity p price)
    0

/-! ## Lookup lemmas -/

theorem match_false_of_ne (x : Position) (sym mkt sym2 mkt2 : String)
    (hxs : x.symbol = sym) (hxm : x.market = mkt)
    (hne : ¬(sym2 = sym ∧ mkt2 = mkt)) :
    (x.symbol == sym2 && x.market == mkt2) = false := by
  subst hxs hxm
  by_cases h1 : x.symbol = sym2
  · by_cases h2 : x.market = mkt2
    · exact absurd ⟨h1.symm, h2.symm⟩ hne
    · simp [h2]
  · simp [h1]

theorem findPos_append_right (ps : List Position) (q : Position)
    (sym mkt : String) (h : findPos ps sym mkt = none)
    (hq : q.symbol = sym) (hm : q.market = mkt) :
    findPos (ps ++ [q]) sym mkt = some q := by
  induction ps with
  | nil => simp [findPos, hq, hm]
  | cons p ps ih =>
    by_cases hp : (p.symbol == sym && p.market == mkt) = true
    · simp [findPos, List.find?_cons, hp] at h
    · simp only [findPos, List.find?_cons, hp, Bool.false_eq_true,
        if_false] at h
      simp only [List.cons_append, findPos, List.find?_cons, hp,
        Bool.false_eq_true, if_false]
      exact ih h

theorem findPos_replacePos_self (ps : List Position) (sym mkt : String)
    (q : Position) (h : (findPos ps sym mkt).isSome = true)
    (hq : q.symbol = sym) (hm : q.market = mkt) :
    findPos (replacePos ps sym mkt q) sym mkt = some q := by
  induction ps with
  | nil => simp [findPos] at h
  | cons p ps ih =>
    by_cases hp : (p.symbol == sym && p.market == mkt) = true
    · have hqt : (q.symbol == sym && q.market == mkt) = true := by
        simp [hq, hm]
      simp only [replacePos, List.map_cons, if_pos hp, findPos,
        List.find?_cons, hqt]
    · simp only [findPos, List.find?_cons, hp, Bool.false_eq_true,
        if_false] at h
      simp only [replacePos, List.map_cons, if_neg hp, findPos,
        List.find?_cons, hp, Bool.false_eq_true, if_false]
      exact ih h

theorem findPos_replacePos_other (ps : List Position) (sym mkt : String)
    (q : Position) (sym2 mkt2 : String)
    (hne : ¬(sym2 = sym ∧ mkt2 = mkt))
    (hq : q.symbol = sym) (hm : q.market = mkt) :
    findPos (replacePos ps sym mkt q) sym2 mkt2 = findPos ps sym2 mkt2 := by
  induction ps with
  | nil => rfl
  | cons p ps ih =>
    by_cases hp : (p.symbol == sym && p.market == mkt) = true
    · have hps : p.symbol = sym ∧ p.market = mkt := by
        simpa [Bool.and_eq_true, beq_iff_eq] using hp
      have hqn := match_false_of_ne q sym mkt sym2 mkt2 hq hm hne
      have hpn := match_false_of_ne p sym mkt sym2 mkt2 hps.1 hps.2 hne
      simp only [replacePos, List.map_cons, if_pos hp, findPos,
        List.find?_cons, hqn, hpn, Bool.false_eq_true, if_false]
      exact ih
    · simp only [replacePos, List.map_cons, if_neg hp, findPos,
        List.find?_cons]
      by_cases hp2 : (p.symbol == sym2 && p.market == mkt2) = true
      · simp [hp2]
      · simp only [hp2, Bool.false_eq_true, if_false]
        exact ih

/-! ## C1: the A-share example scenario -/

/-- Account with cash 100000 and an empty ledger, the C1 scenario start. -/
def c1_start : TradeState :=
  { account := { current_cash := 100000, margin_used := 0,
                 maintenance_margin_req := 0 },
    positions := [], orders := [], trades := [] }

/-- BUY 100 shares of 600000 at limit price 10 through the A-share
executor. -/
def c1_result : Except String TradeState :=
  place_and_execute_astock (some 10) c1_start "600000" "PFYH" .BUY .LIMIT
    10 100

/-- C1 counterexample: the A-share executor charges no transfer fee, so the
scenario ends with total fee 5 (not 5.02) and cash 98995 (not 98994.98) —
the claimed values are wrong on this code. -/
theorem c1_astock_buy_scenario_counterexample :
    execOk c1_result = true ∧
    (applyExec c1_start c1_result).account.current_cash = 98995 ∧
    ((applyExec c1_start c1_result).trades.map
      (fun t => t.commission + t.taker_fee)) = [5] ∧
    (98995 : ℚ) ≠ 9899498 / 100 ∧ (5 : ℚ) ≠ 502 / 100 := by
  refine ⟨?_, ?_, ?_, by norm_num, by norm_num⟩ <;>
    norm_num +decide [c1_result, c1_start, place_and_execute_astock,
      _calc_astock_fee, ASTOCK_COMMISSION_RATE, ASTOCK_MIN_COMMISSION,
      ASTOCK_STAMP_TAX_RATE, ASTOCK_MIN_ORDER_QUANTITY, ASTOCK_LOT_SIZE,
      findPos, applyExec, execOk, max_def]

/-- C1 amended: executing BUY 100 of 600000 at limit 10.00 on CN against
cash 100000 charges commission 5 and no other fee (the executor has no
transfer fee), leaving cash 98995.00, a position of 100 shares at avg cost
10.00, and a FILLED order. -/
theorem c1_astock_buy_scenario :
    c1_result = .ok
      { account := { current_cash := 98995, margin_used := 0,
                     maintenance_margin_req := 0 },
        positions := [{ symbol := "600000", name := "PFYH",
                        market := "ASTOCK", quantity := 100,
                        available_quantity := 100, avg_cost := 10,
                        leverage := 1 }],
        orders := [{ symbol := "600000", name := "PFYH", market := "ASTOCK",
                     side := .BUY, order_type := .LIMIT, price := some 10,
                     quantity := 100, leverage := 1, filled_quantity := 100,
                     status := .FILLED }],
        trades := [{ symbol := "600000", market := "ASTOCK", side := .BUY,
                     price := 10, quantity := 100, commission := 5,
                     taker_fee := 0, interest_charged := 0 }] } := by
  norm_num +decide [c1_result, c1_start, place_and_execute_astock,
    _calc_astock_fee, ASTOCK_COMMISSION_RATE, ASTOCK_MIN_COMMISSION,
    ASTOCK_STAMP_TAX_RATE, ASTOCK_MIN_ORDER_QUANTITY, ASTOCK_LOT_SIZE,
    findPos, max_def]

/-! ## C8: interest accrual formula -/

/-- C8: for a crypto position with leverage above 1 and a recorded
`last_interest_time`, the accrued interest on a touch equals
`quantity * avg_cost * (leverage - 1) / leverage` times the hourly rate
times the hours elapsed; with leverage 1 or no `last_interest_time` it is
exactly 0. -/
theorem crypto_interest_accrual (params : CryptoParams) (now : ℚ)
    (pos : Position) :
    (∀ t, pos.last_interest_time = some t → 1 < pos.leverage →
      _calculate_position_interest params now pos =
        pos.quantity * pos.avg_cost * ((pos.leverage : ℚ) - 1) /
          (pos.leverage : ℚ) * params.interest_rate_hourly * (now - t)) ∧
    ((pos.leverage = 1 ∨ pos.last_interest_time = none) →
      _calculate_position_interest params now pos = 0) := by
  constructor
  · intro t ht hlev
    simp only [_calculate_position_interest, ht]
    rw [if_neg (by omega)]
  · rintro (hlev | hnone)
    · cases hlast : pos.last_interest_time with
      | none => simp [_calculate_position_interest, hlast]
      | some t => simp [_calculate_position_interest, hlast, hlev]
    · simp [_calculate_position_interest, hnone]

/-- Leveraged position used to witness the interest formula. -/
def c8_pos : Position :=
  { symbol := "BTC", name := "BTC", market := "CRYPTO", quantity := 2,
    available_quantity := 2, avg_cost := 10, leverage := 4,
    side := some .LONG, accumulated_interest := 0,
    last_interest_time := some 1 }

/-- The same position held without leverage. -/
def c8_pos_spot : Position := { c8_pos with leverage := 1 }

/-- Parameters used to witness the interest formula. -/
def c8_params : CryptoParams :=
  { taker_fee_rate := 0, interest_rate_hourly := 1 / 100,
    max_leverage := 10, min_order_quantity := 0 }

theorem crypto_interest_accrual_witness :
    (c8_pos.last_interest_time = some 1 ∧ 1 < c8_pos.leverage ∧
      _calculate_position_interest c8_params 3 c8_pos =
        c8_pos.quantity * c8_pos.avg_cost * ((c8_pos.leverage : ℚ) - 1) /
          (c8_pos.leverage : ℚ) * c8_params.interest_rate_hourly * (3 - 1)) ∧
    (c8_pos_spot.leverage = 1 ∧
      _calculate_position_interest c8_params 3 c8_pos_spot = 0) := by
  refine ⟨⟨rfl, by decide, ?_⟩, ⟨rfl, ?_⟩⟩
  · exact (crypto_interest_accrual c8_params 3 c8_pos).1 1 rfl (by decide)
  · exact (crypto_interest_accrual c8_params 3 c8_pos_spot).2 (Or.inl rfl)

/-! ## C9: per-position equity -/

/-- C9: a position priced at `price` contributes
`quantity * price / leverage + quantity * (price - avg_cost)` to the total
position value when leverage exceeds 1, and `quantity * price` when
leverage is 1. -/
theorem position_equity_margin_plus_pnl (p : Position) (price : ℚ) :
    (1 < p.leverage →
      position_equity p price =
        p.quantity * price / (p.leverage : ℚ) +
          p.quantity * (price - p.avg_cost)) ∧
    (p.leverage = 1 → position_equity p price = p.quantity * price) := by
  constructor
  · intro h
    have h0 : (0 : ℤ) < p.leverage := by omega
    have h1 : (1 : ℚ) < (p.leverage : ℚ) := by exact_mod_cast h
    simp only [position_equity, if_pos h0, if_pos h1]
  · intro h
    simp [position_equity, h]

/-- Leveraged position used to witness the equity formula. -/
def c9_lev : Position :=
  { symbol := "ETH", name := "ETH", market := "CRYPTO", quantity := 3,
    available_quantity := 3, avg_cost := 4, leverage := 2,
    side := some .LONG }

/-- Spot position used to witness the equity formula. -/
def c9_spot : Position := { c9_lev with leverage := 1 }

theorem position_equity_margin_plus_pnl_witness :
    (1 < c9_lev.leverage ∧
      position_equity c9_lev 5 =
        c9_lev.quantity * 5 / (c9_lev.leverage : ℚ) +
          c9_lev.quantity * (5 - c9_lev.avg_cost)) ∧
    (c9_spot.leverage = 1 ∧ position_equity c9_spot 5 = c9_spot.quantity * 5)
    := by
  refine ⟨⟨by decide, ?_⟩, ⟨rfl, ?_⟩⟩
  · exact (position_equity_margin_plus_pnl c9_lev 5).1 (by decide)
  · exact (position_equity_margin_plus_pnl c9_spot 5).2 rfl

theorem findPos_keys (ps : List Position) (sym mkt : String) (p : Position)
    (h : findPos ps sym mkt = some p) : p.symbol = sym ∧ p.market = mkt := by
  have := List.find?_some h
  simpa [Bool.and_eq_true, beq_iff_eq] using this

/-! ## C10: opening over a spot or sideless position overwrites it -/

/-- C10: a crypto LONG/SHORT open finding an existing position with
leverage 1 or a null side overwrites its quantity, available quantity,
average cost, leverage and side with the values of the new order — the
previously held quantity is discarded, not merged. -/
theorem crypto_open_overwrites_flat_position
    (params : CryptoParams) (oracle : Option ℚ) (now : ℚ) (st : TradeState)
    (symbol name : String) (side : OrderSide) (P quantity : ℚ)
    (leverage : ℤ) (pos : Position)
    (hside : side = .LONG ∨ side = .SHORT)
    (hfind : findPos st.positions symbol "CRYPTO" = some pos)
    (hflat : pos.leverage = 1 ∨ pos.side = none)
    (hlev1 : 1 ≤ leverage) (hlev2 : leverage ≤ params.max_leverage)
    (hqty : params.min_order_quantity ≤ quantity)
    (hP : P ≠ 0)
    (hcash : P * quantity / (leverage : ℚ) +
        P * quantity * params.taker_fee_rate ≤ st.account.current_cash) :
    ∃ st2,
      place_and_execute_crypto params oracle now st symbol name side .LIMIT
          (some P) quantity leverage = .ok st2 ∧
      findPos st2.positions symbol "CRYPTO" = some
        { pos with
          quantity := quantity
          available_quantity := quantity
          avg_cost := P
          leverage := leverage
          side := sideToPos side
          last_interest_time := some now } := by
  have hv1 : ¬(leverage < 1 ∨ params.max_leverage < leverage) := by
    push_neg
    exact ⟨hlev1, hlev2⟩
  have hv2 : ¬(quantity < params.min_order_quantity) := not_lt.mpr hqty
  have hncash : ¬(st.account.current_cash <
      P * quantity / (leverage : ℚ) +
        P * quantity * params.taker_fee_rate) := not_lt.mpr hcash
  have hcond : ¬(1 < pos.leverage ∧ pos.side ≠ none) := by
    rcases hflat with h | h
    · intro hc
      omega
    · intro hc
      exact hc.2 h
  have hkeys := findPos_keys st.positions symbol "CRYPTO" pos hfind
  rcases hside with rfl | rfl <;>
  · simp only [place_and_execute_crypto, _calc_crypto_fee, if_neg hv1,
      if_neg hv2, if_neg hP, hfind, if_neg hncash, if_neg hcond]
    refine ⟨_, rfl, ?_⟩
    apply findPos_replacePos_self
    · rw [hfind]
      rfl
    · exact hkeys.1
    · exact hkeys.2

/-- Existing unleveraged position used to witness the overwrite claim. -/
def c10_pos : Position :=
  { symbol := "BTC", name := "BTC", market := "CRYPTO", quantity := 7,
    available_quantity := 7, avg_cost := 3, leverage := 1, side := none,
    accumulated_interest := 0, last_interest_time := none }

/-- Crypto parameters used to witness the overwrite claim. -/
def c10_params : CryptoParams :=
  { taker_fee_rate := 0, interest_rate_hourly := 0, max_leverage := 10,
    min_order_quantity := 0 }

/-- Ledger used to witness the overwrite claim. -/
def c10_st : TradeState :=
  { account := { current_cash := 1000, margin_used := 0,
                 maintenance_margin_req := 0 },
    positions := [c10_pos], orders := [], trades := [] }

theorem crypto_open_overwrites_flat_position_witness :
    (findPos c10_st.positions "BTC" "CRYPTO" = some c10_pos ∧
      c10_pos.leverage = 1) ∧
    ∃ st2,
      place_and_execute_crypto c10_params (some 10) 5 c10_st "BTC" "BTC"
          .LONG .LIMIT (some 10) 1 2 = .ok st2 ∧
      findPos st2.positions "BTC" "CRYPTO" = some
        { c10_pos with
          quantity := 1
          available_quantity := 1
          avg_cost := 10
          leverage := 2
          side := sideToPos .LONG
          last_interest_time := some 5 } :=
  ⟨⟨rfl, rfl⟩,
    crypto_open_overwrites_flat_position c10_params (some 10) 5 c10_st
      "BTC" "BTC" .LONG 10 1 2 c10_pos (Or.inl rfl) rfl (Or.inl rfl)
      (by decide) (by decide) (by norm_num [c10_params])
      (by norm_num) (by norm_num [c10_params, c10_st])⟩

/-! ## C5: conflicting open direction is rejected -/

/-- C5: attempting to open a LONG or SHORT while a leveraged position of the
opposite direction exists for the symbol rejects the order: when the
account could otherwise pay (cash covers margin, fee and interest, here
zero accrued interest) the error is the conflicting-position error; no open
attempt of that direction ever succeeds on such a state, and by transaction
rollback the account and position state are unchanged. -/
theorem crypto_open_conflicting_rejects
    (params : CryptoParams) (oracle : Option ℚ) (now : ℚ) (st : TradeState)
    (symbol name : String) (side : OrderSide) (P quantity : ℚ)
    (leverage : ℤ) (pos : Position)
    (hside : side = .LONG ∨ side = .SHORT)
    (hfind : findPos st.positions symbol "CRYPTO" = some pos)
    (hlev : 1 < pos.leverage)
    (hopp : pos.side ≠ none ∧ pos.side ≠ sideToPos side)
    (hlev1 : 1 ≤ leverage) (hlev2 : leverage ≤ params.max_leverage)
    (hqty : params.min_order_quantity ≤ quantity)
    (hP : P ≠ 0)
    (hint : _calculate_position_interest params now pos = 0)
    (hcash : P * quantity / (leverage : ℚ) +
        P * quantity * params.taker_fee_rate ≤ st.account.current_cash) :
    place_and_execute_crypto params oracle now st symbol name side .LIMIT
        (some P) quantity leverage =
      .error "ConflictingPosition: close existing position first" ∧
    applyExec st (place_and_execute_crypto params oracle now st symbol name
      side .LIMIT (some P) quantity leverage) = st ∧
    ∀ (ot : OrderType) (pr : Option ℚ) (q2 : ℚ) (lev2 : ℤ),
      execOk (place_and_execute_crypto params oracle now st symbol name side
        ot pr q2 lev2) = false := by
  have hv1 : ¬(leverage < 1 ∨ params.max_leverage < leverage) := by
    push_neg
    exact ⟨hlev1, hlev2⟩
  have hv2 : ¬(quantity < params.min_order_quantity) := not_lt.mpr hqty
  have hncash : ¬(st.account.current_cash <
      P * quantity / (leverage : ℚ) +
        P * quantity * params.taker_fee_rate) := not_lt.mpr hcash
  have hcond : (1 < pos.leverage ∧ pos.side ≠ none) := ⟨hlev, hopp.1⟩
  have hmain : place_and_execute_crypto params oracle now st symbol name side
      .LIMIT (some P) quantity leverage =
      .error "ConflictingPosition: close existing position first" := by
    rcases hside with rfl | rfl <;>
    · simp only [place_and_execute_crypto, _calc_crypto_fee, if_neg hv1,
        if_neg hv2, if_neg hP, hfind, if_neg hncash, if_pos hcond, hint,
        lt_irrefl, false_and, if_false, if_neg hopp.2]
  refine ⟨hmain, by rw [hmain]; rfl, ?_⟩
  intro ot pr q2 lev2
  by_cases hv1b : (lev2 < 1 ∨ params.max_leverage < lev2)
  · rcases hside with rfl | rfl <;>
    · simp only [place_and_execute_crypto, if_pos hv1b]
      rfl
  · by_cases hv2b : (q2 < params.min_order_quantity)
    · rcases hside with rfl | rfl <;>
      · simp only [place_and_execute_crypto, if_neg hv1b, if_pos hv2b]
        rfl
    · cases hpr : (match ot, pr with
        | OrderType.LIMIT, some p => if p = 0 then oracle else some p
        | _, _ => oracle) with
      | none =>
        rcases hside with rfl | rfl <;>
        · simp only [place_and_execute_crypto, if_neg hv1b, if_neg hv2b, hpr]
          rfl
      | some ep =>
        rcases hside with rfl | rfl <;>
        · simp only [place_and_execute_crypto, _calc_crypto_fee, if_neg hv1b,
            if_neg hv2b, hpr, hfind, if_pos hcond, apply_ite Position.side,
            ite_self, if_neg hopp.2, apply_ite execOk, execOk_error, execOk_ok]

/-- Existing leveraged LONG used to witness the conflict rejection. -/
def c5_pos : Position :=
  { symbol := "BTC", name := "BTC", market := "CRYPTO", quantity := 1,
    available_quantity := 1, avg_cost := 10, leverage := 2,
    side := some .LONG, accumulated_interest := 0,
    last_interest_time := some 0 }

/-- Crypto parameters used to witness the conflict rejection. -/
def c5_params : CryptoParams :=
  { taker_fee_rate := 0, interest_rate_hourly := 0, max_leverage := 10,
    min_order_quantity := 0 }

/-- Ledger used to witness the conflict rejection. -/
def c5_st : TradeState :=
  { account := { current_cash := 1000, margin_used := 5,
                 maintenance_margin_req := 1 / 2 },
    positions := [c5_pos], orders := [], trades := [] }

theorem crypto_open_conflicting_rejects_witness :
    (findPos c5_st.positions "BTC" "CRYPTO" = some c5_pos ∧
      1 < c5_pos.leverage ∧ c5_pos.side = some .LONG) ∧
    place_and_execute_crypto c5_params (some 10) 0 c5_st "BTC" "BTC" .SHORT
        .LIMIT (some 10) 1 2 =
      .error "ConflictingPosition: close existing position first" :=
  ⟨⟨rfl, by decide, rfl⟩,
    (crypto_open_conflicting_rejects c5_params (some 10) 0 c5_st "BTC" "BTC"
      .SHORT 10 1 2 c5_pos (Or.inr rfl) rfl (by decide)
      ⟨by decide, by decide⟩ (by decide) (by decide)
      (by norm_num [c5_params]) (by norm_num)
      (by norm_num [_calculate_position_interest, c5_params, c5_pos])
      (by norm_num [c5_params, c5_st])).1⟩

/-! ## C6: price oracle failure handling -/

/-- C6 amended: a MARKET order whose oracle lookup fails or returns None is
rejected with the price-unavailable error in both executors, and the rolled
back transaction leaves the state unchanged.  (A zero quote is NOT rejected;
see the counterexample below.) -/
theorem market_order_oracle_failure_rejects
    (st : TradeState) (symbol name : String) (params : CryptoParams)
    (side : OrderSide) (price : ℚ) (priceo : Option ℚ) (quantity : ℤ)
    (qc : ℚ) (leverage : ℤ) (now : ℚ)
    (hq1 : quantity % ASTOCK_LOT_SIZE = 0)
    (hq2 : ASTOCK_MIN_ORDER_QUANTITY ≤ quantity)
    (hlev1 : 1 ≤ leverage) (hlev2 : leverage ≤ params.max_leverage)
    (hqc : params.min_order_quantity ≤ qc) :
    (place_and_execute_astock none st symbol name side .MARKET price quantity
        = .error "PriceUnavailable" ∧
      applyExec st (place_and_execute_astock none st symbol name side .MARKET
        price quantity) = st) ∧
    (place_and_execute_crypto params none now st symbol name side .MARKET
        priceo qc leverage = .error "PriceUnavailable" ∧
      applyExec st (place_and_execute_crypto params none now st symbol name
        side .MARKET priceo qc leverage) = st) := by
  have ha1 : ¬(quantity % ASTOCK_LOT_SIZE ≠ 0) := by simpa using hq1
  have ha2 : ¬(quantity < ASTOCK_MIN_ORDER_QUANTITY) := not_lt.mpr hq2
  have hv1 : ¬(leverage < 1 ∨ params.max_leverage < leverage) := by
    push_neg
    exact ⟨hlev1, hlev2⟩
  have hv2 : ¬(qc < params.min_order_quantity) := not_lt.mpr hqc
  have h1 : place_and_execute_astock none st symbol name side .MARKET price
      quantity = .error "PriceUnavailable" := by
    simp only [place_and_execute_astock, if_neg ha1, if_neg ha2,
      eq_self_iff_true, true_or, if_true]
  have h2 : place_and_execute_crypto params none now st symbol name side
      .MARKET priceo qc leverage = .error "PriceUnavailable" := by
    simp only [place_and_execute_crypto, if_neg hv1, if_neg hv2]
  exact ⟨⟨h1, by rw [h1]; rfl⟩, ⟨h2, by rw [h2]; rfl⟩⟩

/-- Crypto parameters used in the zero-price scenario. -/
def c6_params : CryptoParams :=
  { taker_fee_rate := 0, interest_rate_hourly := 0, max_leverage := 10,
    min_order_quantity := 0 }

/-- Ledger used in the zero-price scenario. -/
def c6_st : TradeState :=
  { account := { current_cash := 100, margin_used := 0,
                 maintenance_margin_req := 0 },
    positions := [], orders := [], trades := [] }

/-- MARKET LONG while the oracle quotes exactly 0. -/
def c6_run : Except String TradeState :=
  place_and_execute_crypto c6_params (some 0) 0 c6_st "BTC" "BTC" .LONG
    .MARKET none 1 2

/-- C6 counterexample: a zero oracle quote is not rejected — the MARKET
order executes and is FILLED at price 0. -/
theorem zero_price_market_order_fills :
    execOk c6_run = true ∧
    (applyExec c6_st c6_run).orders.map (fun o => (o.price, o.status)) =
      [(some 0, OrderStatus.FILLED)] := by
  constructor <;>
    norm_num +decide [c6_run, c6_st, c6_params, place_and_execute_crypto,
      _calc_crypto_fee, findPos, execOk, applyExec]

theorem market_order_oracle_failure_rejects_witness :
    ((100 : ℤ) % ASTOCK_LOT_SIZE = 0 ∧
      ASTOCK_MIN_ORDER_QUANTITY ≤ (100 : ℤ) ∧
      c6_params.min_order_quantity ≤ (1 : ℚ)) ∧
    place_and_execute_astock none c6_st "600000" "PFYH" .BUY .MARKET 10 100 =
      .error "PriceUnavailable" ∧
    place_and_execute_crypto c6_params none 0 c6_st "BTC" "BTC" .LONG .MARKET
      none 1 2 = .error "PriceUnavailable" :=
  ⟨⟨by decide, by decide, by norm_num [c6_params]⟩,
    (market_order_oracle_failure_rejects c6_st "600000" "PFYH" c6_params
      .BUY 10 none 100 1 2 0 (by decide) (by decide) (by decide) (by decide)
      (by norm_num [c6_params])).1.1,
    (market_order_oracle_failure_rejects c6_st "BTC" "BTC" c6_params
      .LONG 10 none 100 1 2 0 (by decide) (by decide) (by decide) (by decide)
      (by norm_num [c6_params])).2.1⟩

/-! ## C7: resource errors and the flushed order row -/

/-- C7 amended: an execution rejected by a resource error (insufficient
funds shown here, for both executors) raises before commit, so the
transaction rolls back: the flushed PENDING order row is dropped and the
order list is exactly the one before the call — no order is ever marked
REJECTED. -/
theorem resource_error_rolls_back_order
    (st : TradeState) (symbol name : String) (params : CryptoParams)
    (price P qc : ℚ) (quantity leverage : ℤ) (now : ℚ)
    (oracle : Option ℚ)
    (hq1 : quantity % ASTOCK_LOT_SIZE = 0)
    (hq2 : ASTOCK_MIN_ORDER_QUANTITY ≤ quantity)
    (hprice : price ≠ 0)
    (hcash_a : st.account.current_cash < price * (quantity : ℚ) +
      ((_calc_astock_fee (price * (quantity : ℚ)) false).1 +
        (_calc_astock_fee (price * (quantity : ℚ)) false).2))
    (hlev1 : 1 ≤ leverage) (hlev2 : leverage ≤ params.max_leverage)
    (hqc : params.min_order_quantity ≤ qc) (hP : P ≠ 0)
    (hcash_c : st.account.current_cash <
      P * qc / (leverage : ℚ) + P * qc * params.taker_fee_rate) :
    (place_and_execute_astock oracle st symbol name .BUY .LIMIT price quantity
        = .error "InsufficientFunds: not enough cash" ∧
      (applyExec st (place_and_execute_astock oracle st symbol name .BUY
        .LIMIT price quantity)).orders = st.orders) ∧
    (place_and_execute_crypto params oracle now st symbol name .LONG .LIMIT
        (some P) qc leverage
        = .error "InsufficientFunds: not enough cash" ∧
      (applyExec st (place_and_execute_crypto params oracle now st symbol
        name .LONG .LIMIT (some P) qc leverage)).orders = st.orders) := by
  have ha1 : ¬(quantity % ASTOCK_LOT_SIZE ≠ 0) := by simpa using hq1
  have ha2 : ¬(quantity < ASTOCK_MIN_ORDER_QUANTITY) := not_lt.mpr hq2
  have hres : ¬(OrderType.LIMIT = OrderType.MARKET ∨ price = 0) := by
    simp [hprice]
  have hv1 : ¬(leverage < 1 ∨ params.max_leverage < leverage) := by
    push_neg
    exact ⟨hlev1, hlev2⟩
  have hv2 : ¬(qc < params.min_order_quantity) := not_lt.mpr hqc
  have h1 : place_and_execute_astock oracle st symbol name .BUY .LIMIT price
      quantity = .error "InsufficientFunds: not enough cash" := by
    simp only [place_and_execute_astock, if_neg ha1, if_neg ha2, if_neg hres,
      show decide (OrderSide.BUY = OrderSide.SELL) = false from rfl,
      if_pos hcash_a]
  have h2 : place_and_execute_crypto params oracle now st symbol name .LONG
      .LIMIT (some P) qc leverage
      = .error "InsufficientFunds: not enough cash" := by
    simp only [place_and_execute_crypto, _calc_crypto_fee, if_neg hv1,
      if_neg hv2, if_neg hP, if_pos hcash_c]
  exact ⟨⟨h1, by rw [h1]; rfl⟩, ⟨h2, by rw [h2]; rfl⟩⟩

/-- Ledger with no cash, used in the C7 scenario. -/
def c7_st : TradeState :=
  { account := { current_cash := 0, margin_used := 0,
                 maintenance_margin_req := 0 },
    positions := [], orders := [], trades := [] }

/-- A BUY the account cannot pay for. -/
def c7_run : Except String TradeState :=
  place_and_execute_astock (some 10) c7_st "600000" "PFYH" .BUY .LIMIT 10 100

/-- C7 counterexample: the resource-rejected execution leaves no order row
at all — the flushed PENDING row is rolled back, so no order ends with
status REJECTED (the claim expects a REJECTED order to survive). -/
theorem resource_error_order_dropped_counterexample :
    execOk c7_run = false ∧ (applyExec c7_st c7_run).orders = [] := by
  constructor <;>
    norm_num +decide [c7_run, c7_st, place_and_execute_astock,
      _calc_astock_fee, ASTOCK_COMMISSION_RATE, ASTOCK_MIN_COMMISSION,
      ASTOCK_STAMP_TAX_RATE, ASTOCK_MIN_ORDER_QUANTITY, ASTOCK_LOT_SIZE,
      findPos, execOk, applyExec, max_def]

theorem resource_error_rolls_back_order_witness :
    (c7_st.account.current_cash <
      10 * ((100 : ℤ) : ℚ) +
        ((_calc_astock_fee (10 * ((100 : ℤ) : ℚ)) false).1 +
          (_calc_astock_fee (10 * ((100 : ℤ) : ℚ)) false).2)) ∧
    place_and_execute_astock (some 10) c7_st "600000" "PFYH" .BUY .LIMIT 10
      100 = .error "InsufficientFunds: not enough cash" ∧
    place_and_execute_crypto c6_params (some 10) 0 c7_st "BTC" "BTC" .LONG
      .LIMIT (some 10) 1 2 = .error "InsufficientFunds: not enough cash" := by
  have hca : c7_st.account.current_cash <
      10 * ((100 : ℤ) : ℚ) +
        ((_calc_astock_fee (10 * ((100 : ℤ) : ℚ)) false).1 +
          (_calc_astock_fee (10 * ((100 : ℤ) : ℚ)) false).2) := by
    norm_num [c7_st, _calc_astock_fee, ASTOCK_COMMISSION_RATE,
      ASTOCK_MIN_COMMISSION, ASTOCK_STAMP_TAX_RATE, max_def]
  have hcc : c7_st.account.current_cash <
      (10 : ℚ) * 1 / ((2 : ℤ) : ℚ) + 10 * 1 * c6_params.taker_fee_rate := by
    norm_num [c7_st, c6_params]
  have h := resource_error_rolls_back_order c7_st "600000" "PFYH" c6_params
    10 10 1 100 2 0 (some 10) (by decide) (by decide) (by norm_num) hca
    (by decide) (by decide) (by norm_num [c6_params]) (by norm_num) hcc
  have h2 := resource_error_rolls_back_order c7_st "BTC" "BTC" c6_params
    10 10 1 100 2 0 (some 10) (by decide) (by decide) (by norm_num) hca
    (by decide) (by decide) (by norm_num [c6_params]) (by norm_num) hcc
  exact ⟨hca, h.1.1, h2.2.1⟩

/-! ## C4: closing more than the position -/

/-- C4 amended: closes rejecting with insufficient position mutate nothing,
but the quantity that is checked differs by branch.  (a) An A-share SELL
rejects when there is no position or the requested quantity exceeds
`available_quantity`.  (b) A crypto close (BUY/SELL) rejects when no
position exists.  (c) A crypto close of a leveraged position rejects when
the requested quantity exceeds the position's total `quantity` — NOT its
`available_quantity`.  (d) A crypto close of an unleveraged position
rejects when the requested quantity exceeds `available_quantity`. -/
theorem close_insufficient_position_rejects
    (params : CryptoParams) (oracle : Option ℚ) (now : ℚ) (st : TradeState)
    (symbol name : String) :
    (∀ (price : ℚ) (quantity : ℤ),
      quantity % ASTOCK_LOT_SIZE = 0 →
      ASTOCK_MIN_ORDER_QUANTITY ≤ quantity →
      price ≠ 0 →
      (findPos st.positions symbol "ASTOCK" = none ∨
        ∃ pos, findPos st.positions symbol "ASTOCK" = some pos ∧
          pos.available_quantity < (quantity : ℚ)) →
      ∃ e, place_and_execute_astock oracle st symbol name .SELL .LIMIT price
          quantity = .error e ∧
        applyExec st (place_and_execute_astock oracle st symbol name .SELL
          .LIMIT price quantity) = st) ∧
    (∀ (P qc : ℚ) (leverage : ℤ) (side : OrderSide),
      side = .BUY ∨ side = .SELL →
      1 ≤ leverage → leverage ≤ params.max_leverage →
      params.min_order_quantity ≤ qc → P ≠ 0 →
      findPos st.positions symbol "CRYPTO" = none →
      place_and_execute_crypto params oracle now st symbol name side .LIMIT
          (some P) qc leverage = .error "NoPosition: no position to close" ∧
      applyExec st (place_and_execute_crypto params oracle now st symbol name
        side .LIMIT (some P) qc leverage) = st) ∧
    (∀ (P qc : ℚ) (leverage : ℤ) (side : OrderSide) (pos : Position),
      1 ≤ leverage → leverage ≤ params.max_leverage →
      params.min_order_quantity ≤ qc → P ≠ 0 →
      findPos st.positions symbol "CRYPTO" = some pos →
      1 < pos.leverage → pos.quantity ≠ 0 →
      _calculate_position_interest params now pos = 0 →
      ((side = .SELL ∧ pos.side = some .LONG) ∨
        (side = .BUY ∧ pos.side = some .SHORT)) →
      pos.quantity < qc →
      place_and_execute_crypto params oracle now st symbol name side .LIMIT
          (some P) qc leverage =
        .error "NoPosition: cannot close more than position size" ∧
      applyExec st (place_and_execute_crypto params oracle now st symbol name
        side .LIMIT (some P) qc leverage) = st) ∧
    (∀ (P qc : ℚ) (leverage : ℤ) (pos : Position),
      1 ≤ leverage → leverage ≤ params.max_leverage →
      params.min_order_quantity ≤ qc → P ≠ 0 →
      findPos st.positions symbol "CRYPTO" = some pos →
      pos.leverage ≤ 1 → pos.quantity ≠ 0 →
      pos.available_quantity < qc →
      place_and_execute_crypto params oracle now st symbol name .SELL .LIMIT
          (some P) qc leverage =
        .error "InsufficientPosition: not enough available quantity" ∧
      applyExec st (place_and_execute_crypto params oracle now st symbol name
        .SELL .LIMIT (some P) qc leverage) = st) := by
  refine ⟨?_, ?_, ?_, ?_⟩
  · intro price quantity hq1 hq2 hprice hcase
    have ha1 : ¬(quantity % ASTOCK_LOT_SIZE ≠ 0) := by simpa using hq1
    have ha2 : ¬(quantity < ASTOCK_MIN_ORDER_QUANTITY) := not_lt.mpr hq2
    have hres : ¬(OrderType.LIMIT = OrderType.MARKET ∨ price = 0) := by
      simp [hprice]
    rcases hcase with hnone | ⟨pos, hfind, hlt⟩
    · refine ⟨"InsufficientPosition: nothing to sell", ?_, ?_⟩ <;>
        simp only [place_and_execute_astock, if_neg ha1, if_neg ha2,
          if_neg hres, hnone, applyExec]
    · refine ⟨"InsufficientPosition: not enough available quantity", ?_, ?_⟩
        <;>
        simp only [place_and_execute_astock, if_neg ha1, if_neg ha2,
          if_neg hres, hfind, if_pos hlt, applyExec]
  · intro P qc leverage side hside hlev1 hlev2 hqc hP hnone
    have hv1 : ¬(leverage < 1 ∨ params.max_leverage < leverage) := by
      push_neg
      exact ⟨hlev1, hlev2⟩
    have hv2 : ¬(qc < params.min_order_quantity) := not_lt.mpr hqc
    rcases hside with rfl | rfl <;>
    · constructor <;>
        simp only [place_and_execute_crypto, crypto_close, if_neg hv1,
          if_neg hv2, if_neg hP, hnone, applyExec]
  · intro P qc leverage side pos hlev1 hlev2 hqc hP hfind hplev hq0 hint
      hmatch hlt
    have hv1 : ¬(leverage < 1 ∨ params.max_leverage < leverage) := by
      push_neg
      exact ⟨hlev1, hlev2⟩
    have hv2 : ¬(qc < params.min_order_quantity) := not_lt.mpr hqc
    rcases hmatch with ⟨rfl, hps⟩ | ⟨rfl, hps⟩ <;>
    · constructor <;>
        simp only [place_and_execute_crypto, crypto_close, if_neg hv1,
          if_neg hv2, if_neg hP, hfind, if_neg hq0, hint, lt_irrefl,
          false_and, if_false, if_pos hplev, hps, ne_eq, eq_self_iff_true,
          not_true, reduceCtorEq, and_false, false_and, false_or, or_false,
          true_and, and_true, if_pos hlt, applyExec]
  · intro P qc leverage pos hlev1 hlev2 hqc hP hfind hplev hq0 hlt
    have hv1 : ¬(leverage < 1 ∨ params.max_leverage < leverage) := by
      push_neg
      exact ⟨hlev1, hlev2⟩
    have hv2 : ¬(qc < params.min_order_quantity) := not_lt.mpr hqc
    have hint : _calculate_position_interest params now pos = 0 := by
      cases hlast : pos.last_interest_time with
      | none => simp [_calculate_position_interest, hlast]
      | some t => simp [_calculate_position_interest, hlast, if_pos hplev]
    have hnl : ¬(1 < pos.leverage) := not_lt.mpr hplev
    have hns : ¬(OrderSide.SELL ≠ OrderSide.SELL) := by simp
    constructor <;>
      simp only [place_and_execute_crypto, crypto_close, if_neg hv1,
        if_neg hv2, if_neg hP, hfind, if_neg hq0, hint, lt_irrefl,
        false_and, if_false, if_neg hnl, if_neg hns, if_pos hlt, applyExec]

/-- Crypto parameters used in the C4 scenario. -/
def c4_params : CryptoParams :=
  { taker_fee_rate := 0, interest_rate_hourly := 0, max_leverage := 10,
    min_order_quantity := 0 }

/-- Empty ledger with cash 1000, the C4 scenario start. -/
def c4_st0 : TradeState :=
  { account := { current_cash := 1000, margin_used := 0,
                 maintenance_margin_req := 1 / 2 },
    positions := [], orders := [], trades := [] }

/-- Open a 2x LONG of 1 BTC at 10, then add the same again: the add branch
does not update `available_quantity`, leaving quantity 2, available 1. -/
def c4_open2 : Except String TradeState :=
  (place_and_execute_crypto c4_params (some 10) 0 c4_st0 "BTC" "BTC" .LONG
      .LIMIT (some 10) 1 2).bind
    (fun s1 => place_and_execute_crypto c4_params (some 10) 0 s1 "BTC" "BTC"
      .LONG .LIMIT (some 10) 1 2)

/-- C4 counterexample: after the two opens the position has quantity 2 but
available_quantity 1, and a SELL of 2 — more than `available_quantity` —
executes successfully instead of rejecting: the leveraged close checks
total quantity only. -/
theorem leveraged_close_ignores_available_quantity :
    (c4_open2.map (fun s => (findPos s.positions "BTC" "CRYPTO").map
      (fun p => (p.quantity, p.available_quantity)))) = .ok (some (2, 1)) ∧
    execOk (c4_open2.bind (fun s2 => place_and_execute_crypto c4_params
      (some 10) 0 s2 "BTC" "BTC" .SELL .LIMIT (some 10) 2 1)) = true := by
  constructor <;>
    norm_num +decide [c4_open2, c4_st0, c4_params, place_and_execute_crypto,
      crypto_close, _calc_crypto_fee, _calculate_position_interest,
      int_trunc, findPos, replacePos, sideToPos, execOk, Except.bind,
      Except.map]

/-- Leveraged LONG with quantity 2 but available 1 (witness data). -/
def c4_pos_lev : Position :=
  { symbol := "BTC", name := "BTC", market := "CRYPTO", quantity := 2,
    available_quantity := 1, avg_cost := 10, leverage := 2,
    side := some .LONG, accumulated_interest := 0,
    last_interest_time := none }

/-- Spot position with quantity and available 1 (witness data). -/
def c4_pos_spot : Position :=
  { symbol := "ETH", name := "ETH", market := "CRYPTO", quantity := 1,
    available_quantity := 1, avg_cost := 10, leverage := 1, side := none,
    accumulated_interest := 0, last_interest_time := none }

/-- Ledger holding the two witness positions. -/
def c4_stw : TradeState :=
  { account := { current_cash := 1000, margin_used := 10,
                 maintenance_margin_req := 1 / 2 },
    positions := [c4_pos_lev, c4_pos_spot], orders := [], trades := [] }

theorem close_insufficient_position_rejects_witness :
    (findPos c4_stw.positions "BTC" "ASTOCK" = none ∧
      ∃ e, place_and_execute_astock (some 10) c4_stw "BTC" "X" .SELL .LIMIT
          10 100 = .error e ∧
        applyExec c4_stw (place_and_execute_astock (some 10) c4_stw "BTC"
          "X" .SELL .LIMIT 10 100) = c4_stw) ∧
    (c4_pos_lev.quantity < 3 ∧
      place_and_execute_crypto c4_params (some 10) 0 c4_stw "BTC" "X" .SELL
          .LIMIT (some 10) 3 1 =
        .error "NoPosition: cannot close more than position size") ∧
    (c4_pos_spot.available_quantity < 2 ∧
      place_and_execute_crypto c4_params (some 10) 0 c4_stw "ETH" "X" .SELL
          .LIMIT (some 10) 2 1 =
        .error "InsufficientPosition: not enough available quantity") := by
  have h := close_insufficient_position_rejects c4_params (some 10) 0 c4_stw
    "BTC" "X"
  have h2 := close_insufficient_position_rejects c4_params (some 10) 0
    c4_stw "ETH" "X"
  refine ⟨⟨rfl, h.1 10 100 (by decide) (by decide) (by norm_num)
      (Or.inl rfl)⟩, ⟨by norm_num [c4_pos_lev], ?_⟩,
    ⟨by norm_num [c4_pos_spot], ?_⟩⟩
  · exact (h.2.2.1 10 3 1 .SELL c4_pos_lev (by decide)
      (by norm_num [c4_params]) (by norm_num [c4_params]) (by norm_num) rfl
      (by decide) (by norm_num [c4_pos_lev]) rfl (Or.inl ⟨rfl, rfl⟩)
      (by norm_num [c4_pos_lev])).1
  · exact (h2.2.2.2 10 2 1 c4_pos_spot (by decide)
      (by norm_num [c4_params]) (by norm_num [c4_params]) (by norm_num) rfl
      (by decide) (by norm_num [c4_pos_spot])
      (by norm_num [c4_pos_spot])).1

/-! ## C3: leveraged round trip at constant price -/

/-- C3: opening a leveraged LONG of quantity Q at price P with leverage L on
a flat account and fully closing it with a SELL of Q at the same price P
with zero elapsed interest time succeeds, changes cash by exactly minus the
two taker fees (realized PnL is zero), and restores `margin_used` (the full
initial margin is released). -/
theorem crypto_round_trip_fees_only
    (params : CryptoParams) (now : ℚ) (st : TradeState)
    (symbol name : String) (P Q : ℚ) (L : ℤ)
    (hL1 : 1 ≤ L) (hL2 : L ≤ params.max_leverage)
    (hQ : params.min_order_quantity ≤ Q) (hQ0 : Q ≠ 0) (hP : P ≠ 0)
    (hnopos : findPos st.positions symbol "CRYPTO" = none)
    (hcash : P * Q / (L : ℚ) + P * Q * params.taker_fee_rate ≤
      st.account.current_cash) :
    execOk (place_and_execute_crypto params (some P) now st symbol name
      .LONG .LIMIT (some P) Q L) = true ∧
    execOk (place_and_execute_crypto params (some P) now
      (applyExec st (place_and_execute_crypto params (some P) now st symbol
        name .LONG .LIMIT (some P) Q L)) symbol name .SELL .LIMIT (some P)
      Q 1) = true ∧
    (applyExec
      (applyExec st (place_and_execute_crypto params (some P) now st symbol
        name .LONG .LIMIT (some P) Q L))
      (place_and_execute_crypto params (some P) now
        (applyExec st (place_and_execute_crypto params (some P) now st
          symbol name .LONG .LIMIT (some P) Q L)) symbol name .SELL .LIMIT
        (some P) Q 1)).account.current_cash =
      st.account.current_cash - 2 * (P * Q * params.taker_fee_rate) ∧
    (applyExec
      (applyExec st (place_and_execute_crypto params (some P) now st symbol
        name .LONG .LIMIT (some P) Q L))
      (place_and_execute_crypto params (some P) now
        (applyExec st (place_and_execute_crypto params (some P) now st
          symbol name .LONG .LIMIT (some P) Q L)) symbol name .SELL .LIMIT
        (some P) Q 1)).account.margin_used = st.account.margin_used := by
  have hv1 : ¬(L < 1 ∨ params.max_leverage < L) := by
    push_neg
    exact ⟨hL1, hL2⟩
  have hv1c : ¬((1 : ℤ) < 1 ∨ params.max_leverage < 1) := by
    push_neg
    exact ⟨le_refl 1, le_trans hL1 hL2⟩
  have hv2 : ¬(Q < params.min_order_quantity) := not_lt.mpr hQ
  have hncash : ¬(st.account.current_cash <
      P * Q / (L : ℚ) + P * Q * params.taker_fee_rate) := not_lt.mpr hcash
  have hopen : place_and_execute_crypto params (some P) now st symbol name
      .LONG .LIMIT (some P) Q L = .ok
      { account :=
          if 1 < L then
            { current_cash := st.account.current_cash -
                (P * Q / (L : ℚ) + P * Q * params.taker_fee_rate)
              margin_used := st.account.margin_used + P * Q / (L : ℚ)
              maintenance_margin_req := st.account.maintenance_margin_req }
          else
            { current_cash := st.account.current_cash -
                (P * Q / (L : ℚ) + P * Q * params.taker_fee_rate)
              margin_used := st.account.margin_used
              maintenance_margin_req := st.account.maintenance_margin_req },
        positions := st.positions ++
          [{ symbol := symbol, name := name, market := "CRYPTO",
             quantity := Q, available_quantity := Q, avg_cost := P,
             leverage := L, side := some PositionSide.LONG,
             accumulated_interest := 0, last_interest_time := some now }],
        orders := st.orders ++
          [{ symbol := symbol, name := name, market := "CRYPTO",
             side := OrderSide.LONG, order_type := OrderType.LIMIT,
             price := some P, quantity := Q, leverage := L,
             filled_quantity := Q, status := OrderStatus.FILLED }],
        trades := st.trades ++
          [{ symbol := symbol, market := "CRYPTO", side := OrderSide.LONG,
             price := P, quantity := Q,
             commission := P * Q * params.taker_fee_rate,
             taker_fee := P * Q * params.taker_fee_rate,
             interest_charged := 0 }] } := by
    simp only [place_and_execute_crypto, _calc_crypto_fee, if_neg hv1,
      if_neg hv2, if_neg hP, hnopos, if_neg hncash, sideToPos]
  rw [hopen]
  have hint : _calculate_position_interest params now
      { symbol := symbol, name := name, market := "CRYPTO", quantity := Q,
        available_quantity := Q, avg_cost := P, leverage := L,
        side := some .LONG, accumulated_interest := 0,
        last_interest_time := some now } = 0 := by
    simp [_calculate_position_interest, sub_self]
  have hmx : ¬(params.max_leverage < 1) := not_lt.mpr (le_trans hL1 hL2)
  have hfind1 : findPos (st.positions ++
      [{ symbol := symbol, name := name, market := "CRYPTO", quantity := Q,
         available_quantity := Q, avg_cost := P, leverage := L,
         side := some PositionSide.LONG, accumulated_interest := 0,
         last_interest_time := some now }]) symbol "CRYPTO" = some
      { symbol := symbol, name := name, market := "CRYPTO", quantity := Q,
        available_quantity := Q, avg_cost := P, leverage := L,
        side := some PositionSide.LONG, accumulated_interest := 0,
        last_interest_time := some now } :=
    findPos_append_right _ _ _ _ hnopos rfl rfl
  have hQ0' : ¬(Q = (0 : ℚ)) := hQ0
  simp only [applyExec, place_and_execute_crypto, crypto_close,
    _calc_crypto_fee, if_neg hv1c, if_neg hv2, if_neg hP, if_neg hmx,
    hfind1, if_neg hQ0', hint, lt_irrefl, false_and, if_false, ne_eq,
    reduceCtorEq, and_false, false_or, or_false, true_and, and_true,
    lt_self_iff_false, sub_self, not_false_iff, eq_self_iff_true, not_true,
    if_true]
  rcases lt_or_eq_of_le hL1 with hL | hL
  · simp only [if_pos hL, execOk_ok, applyExec]
    refine ⟨by simp [execOk], by simp [execOk], by ring_nf, by ring_nf⟩
  · subst hL
    simp only [lt_irrefl, if_false, execOk_ok, applyExec]
    refine ⟨by simp [execOk], by simp [execOk], by ring_nf, by ring_nf⟩

/-- Crypto parameters with a nonzero taker fee (round-trip witness). -/
def c3_params : CryptoParams :=
  { taker_fee_rate := 1 / 1000, interest_rate_hourly := 0,
    max_leverage := 10, min_order_quantity := 0 }

/-- Flat ledger, cash 1000 (round-trip witness). -/
def c3_st : TradeState :=
  { account := { current_cash := 1000, margin_used := 7,
                 maintenance_margin_req := 1 / 2 },
    positions := [], orders := [], trades := [] }

/-- Open the LONG leg of the round trip. -/
def c3_r1 : Except String TradeState :=
  place_and_execute_crypto c3_params (some 10) 0 c3_st "BTC" "BTC" .LONG
    .LIMIT (some 10) 1 2

/-- State after the open leg. -/
def c3_st1 : TradeState := applyExec c3_st c3_r1

/-- Close the round trip at the same price. -/
def c3_r2 : Except String TradeState :=
  place_and_execute_crypto c3_params (some 10) 0 c3_st1 "BTC" "BTC" .SELL
    .LIMIT (some 10) 1 1

/-- State after the close leg. -/
def c3_st2 : TradeState := applyExec c3_st1 c3_r2

theorem crypto_round_trip_fees_only_witness :
    (findPos c3_st.positions "BTC" "CRYPTO" = none ∧
      (10 : ℚ) * 1 / ((2 : ℤ) : ℚ) + 10 * 1 * c3_params.taker_fee_rate ≤
        c3_st.account.current_cash) ∧
    execOk c3_r1 = true ∧ execOk c3_r2 = true ∧
    c3_st2.account.current_cash =
      c3_st.account.current_cash - 2 * (10 * 1 * c3_params.taker_fee_rate) ∧
    c3_st2.account.margin_used = c3_st.account.margin_used := by
  have h := crypto_round_trip_fees_only c3_params 0 c3_st "BTC" "BTC" 10 1 2
    (by decide) (by decide) (by norm_num [c3_params]) (by norm_num)
    (by norm_num) rfl (by norm_num [c3_params, c3_st])
  exact ⟨⟨rfl, by norm_num [c3_params, c3_st]⟩, h.1, h.2.1, h.2.2.1,
    h.2.2.2⟩

/-! ## C2: margin sweep liquidation -/

/-- The zeroed-out position a full liquidation close leaves behind. -/
def liq_closed (p : Position) : Position :=
  { p with
    quantity := 0
    available_quantity := p.available_quantity - p.quantity
    side := none
    leverage := 1
    last_interest_time := none }

/-- The shape of a liquidation order for position `p`: a MARKET order for
the full quantity on the side opposite the position side, ending FILLED. -/
def liq_order_for (p : Position) (o : Order) : Prop :=
  o.symbol = p.symbol ∧ o.market = p.market ∧ o.order_type = .MARKET ∧
  o.quantity = p.quantity ∧
  o.side = (if p.side = some PositionSide.LONG then OrderSide.SELL
    else OrderSide.BUY) ∧
  o.status = .FILLED

theorem check_and_execute_liq_order
    (params : CryptoParams) (prices : String → Option ℚ) (now : ℚ)
    (s : TradeState) (cur : Position) (pr : ℚ)
    (hfind : findPos s.positions cur.symbol cur.market = some cur)
    (hq : 0 < cur.quantity) (hlev : 1 < cur.leverage)
    (hside : cur.side = some .LONG ∨ cur.side = some .SHORT)
    (hpr : prices cur.symbol = some pr)
    (hint : _calculate_position_interest params now cur = 0) :
    ∃ s2,
      check_and_execute_order params prices now s
        { symbol := cur.symbol, name := cur.name, market := cur.market,
          side := if cur.side = some PositionSide.LONG then OrderSide.SELL
            else OrderSide.BUY,
          order_type := .MARKET, price := none, quantity := cur.quantity,
          leverage := 1, filled_quantity := 0, status := .PENDING } =
        .ok s2 ∧
      s2.positions = replacePos s.positions cur.symbol cur.market
        (liq_closed cur) ∧
      s2.orders = s.orders ++
        [{ symbol := cur.symbol, name := cur.name, market := cur.market,
           side := if cur.side = some PositionSide.LONG then OrderSide.SELL
             else OrderSide.BUY,
           order_type := .MARKET, price := some pr,
           quantity := cur.quantity, leverage := 1,
           filled_quantity := cur.quantity, status := .FILLED }] := by
  have hq0 : ¬(cur.quantity = 0) := ne_of_gt hq
  rcases hside with hs | hs
  · refine ⟨applyExec s (check_and_execute_order params prices now s
      { symbol := cur.symbol, name := cur.name, market := cur.market,
        side := if cur.side = some PositionSide.LONG then OrderSide.SELL
          else OrderSide.BUY,
        order_type := .MARKET, price := none, quantity := cur.quantity,
        leverage := 1, filled_quantity := 0, status := .PENDING }),
      ?_, ?_, ?_⟩
    all_goals simp only [check_and_execute_order, crypto_close, hpr, hfind,
      if_neg hq0, hint, lt_irrefl, false_and, if_false, if_pos hlev, hs,
      if_pos rfl, ne_eq, eq_self_iff_true, not_true,
      reduceCtorEq, and_false, false_and, false_or, or_false, true_and,
      and_true, lt_self_iff_false, sub_self, not_false_iff, if_true,
      applyExec]
    all_goals simp [liq_closed, hs]
  · have hsn : ¬(cur.side = some PositionSide.LONG) := by simp [hs]
    refine ⟨applyExec s (check_and_execute_order params prices now s
      { symbol := cur.symbol, name := cur.name, market := cur.market,
        side := if cur.side = some PositionSide.LONG then OrderSide.SELL
          else OrderSide.BUY,
        order_type := .MARKET, price := none, quantity := cur.quantity,
        leverage := 1, filled_quantity := 0, status := .PENDING }),
      ?_, ?_, ?_⟩
    all_goals simp only [check_and_execute_order, crypto_close, hpr, hfind,
      if_neg hq0, hint, lt_irrefl, false_and, if_false, if_pos hlev, hs,
      if_neg hsn, ne_eq, eq_self_iff_true, not_true,
      reduceCtorEq, and_false, false_and, false_or, or_false, true_and,
      and_true, lt_self_iff_false, sub_self, not_false_iff, if_true,
      applyExec]
    all_goals simp [liq_closed, hs]

theorem findPos_of_mem_nodup (ps : List Position) (p : Position)
    (hnd : (ps.map Position.symbol).Nodup) (hmem : p ∈ ps) :
    findPos ps p.symbol p.market = some p := by
  induction ps with
  | nil => cases hmem
  | cons q ps ih =>
    rcases List.mem_cons.mp hmem with rfl | hmem2
    · simp [findPos, List.find?_cons]
    · have hnc := hnd
      rw [List.map_cons, List.nodup_cons] at hnc
      have hqs : q.symbol ≠ p.symbol := by
        intro he
        exact hnc.1 (he ▸ List.mem_map_of_mem Position.symbol hmem2)
      have hqf : (q.symbol == p.symbol && q.market == p.market) = false := by
        simp [hqs]
      simp only [findPos, List.find?_cons, hqf, Bool.false_eq_true, if_false]
      exact ih hnc.2 hmem2

theorem liquidate_spec (params : CryptoParams) (prices : String → Option ℚ)
    (now : ℚ) :
    ∀ (ps : List Position) (s : TradeState),
    (∀ p ∈ ps, findPos s.positions p.symbol p.market = some p) →
    (∀ p ∈ ps, 0 < p.quantity) →
    (∀ p ∈ ps, 1 < p.leverage) →
    (∀ p ∈ ps, p.side = some PositionSide.LONG ∨
      p.side = some PositionSide.SHORT) →
    (∀ p ∈ ps, ∃ pr, prices p.symbol = some pr) →
    (∀ p ∈ ps, _calculate_position_interest params now p = 0) →
    ((ps.map Position.symbol).Nodup) →
    (∃ os, (_liquidate_positions params prices now s ps).orders =
        s.orders ++ os ∧ List.Forall₂ liq_order_for ps os) ∧
    (∀ p ∈ ps,
      findPos (_liquidate_positions params prices now s ps).positions
        p.symbol p.market = some (liq_closed p)) ∧
    (∀ sym mkt, (∀ p ∈ ps, ¬(sym = p.symbol ∧ mkt = p.market)) →
      findPos (_liquidate_positions params prices now s ps).positions sym
        mkt = findPos s.positions sym mkt) := by
  intro ps
  induction ps with
  | nil =>
    intro s _ _ _ _ _ _ _
    exact ⟨⟨[], by simp [_liquidate_positions], .nil⟩,
      by simp, fun sym mkt _ => by simp [_liquidate_positions]⟩
  | cons p ps ih =>
    intro s hfind hq hlev hside hpr hint hnd
    have hmem : p ∈ p :: ps := List.mem_cons_self p ps
    obtain ⟨pr, hpr0⟩ := hpr p hmem
    obtain ⟨s1, hrun, hpos1, hord1⟩ := check_and_execute_liq_order params
      prices now s p pr (hfind p hmem) (hq p hmem) (hlev p hmem)
      (hside p hmem) hpr0 (hint p hmem)
    have hnc := hnd
    rw [List.map_cons, List.nodup_cons] at hnc
    have hne_tail : ∀ q ∈ ps, ¬(q.symbol = p.symbol ∧ q.market = p.market)
        := by
      intro q hqmem hc
      exact hnc.1 (hc.1 ▸ List.mem_map_of_mem Position.symbol hqmem)
    have hstep : _liquidate_positions params prices now s (p :: ps) =
        _liquidate_positions params prices now s1 ps := by
      simp only [_liquidate_positions, List.foldl_cons, hfind p hmem,
        if_neg (not_le.mpr (hq p hmem)), hrun]
    have hfind1 : ∀ q ∈ ps, findPos s1.positions q.symbol q.market = some q
        := by
      intro q hqmem
      rw [hpos1, findPos_replacePos_other s.positions p.symbol p.market
        (liq_closed p) q.symbol q.market (hne_tail q hqmem) rfl rfl]
      exact hfind q (List.mem_cons_of_mem p hqmem)
    obtain ⟨⟨os1, hords1, hrel1⟩, hfinds1, hpres1⟩ := ih s1 hfind1
      (fun q hqm => hq q (List.mem_cons_of_mem p hqm))
      (fun q hqm => hlev q (List.mem_cons_of_mem p hqm))
      (fun q hqm => hside q (List.mem_cons_of_mem p hqm))
      (fun q hqm => hpr q (List.mem_cons_of_mem p hqm))
      (fun q hqm => hint q (List.mem_cons_of_mem p hqm))
      hnc.2
    refine ⟨⟨{ symbol := p.symbol, name := p.name, market := p.market, side := (if p.side = some PositionSide.LONG then OrderSide.SELL else OrderSide.BUY), order_type := .MARKET, price := some pr, quantity := p.quantity, leverage := 1, filled_quantity := p.quantity, status := .FILLED } :: os1, ?_, ?_⟩, ?_, ?_⟩
    · rw [hstep, hords1, hord1, List.append_assoc]
      rfl
    · exact List.Forall₂.cons ⟨rfl, rfl, rfl, rfl, rfl, rfl⟩ hrel1
    · intro q hqmem
      rcases List.mem_cons.mp hqmem with rfl | hqmem2
      · rw [hstep, hpres1 q.symbol q.market (fun r hrm => by
          intro hc
          exact hne_tail r hrm ⟨hc.1.symm, hc.2.symm⟩), hpos1]
        exact findPos_replacePos_self s.positions q.symbol q.market
          (liq_closed q) (by rw [hfind q hmem]; rfl) rfl rfl
      · rw [hstep]
        exact hfinds1 q hqmem2
    · intro sym mkt hdisj
      rw [hstep, hpres1 sym mkt
        (fun r hrm => hdisj r (List.mem_cons_of_mem p hrm)), hpos1,
        findPos_replacePos_other s.positions p.symbol p.market
          (liq_closed p) sym mkt (hdisj p hmem) rfl rfl]

/-- C2: for an account with positive margin_used whose equity (cash plus
the aggregate unrealized PnL of its leveraged positions) over margin_used
is below the maintenance requirement, one margin-monitor sweep produces
exactly one closing MARKET order per open leveraged position — each FILLED
for the position's full quantity on the side opposite the position side —
and afterwards every such position has quantity 0 and null side. -/
theorem margin_sweep_liquidates_all
    (params : CryptoParams) (prices : String → Option ℚ) (now : ℚ)
    (st : TradeState)
    (hnd : (st.positions.map Position.symbol).Nodup)
    (hmargin : 0 < st.account.margin_used)
    (hside : ∀ p ∈ st.positions.filter
        (fun p => decide (0 < p.quantity ∧ 1 < p.leverage)),
      p.side = some PositionSide.LONG ∨ p.side = some PositionSide.SHORT)
    (hpr : ∀ p ∈ st.positions.filter
        (fun p => decide (0 < p.quantity ∧ 1 < p.leverage)),
      ∃ pr, prices p.symbol = some pr ∧ 0 < pr)
    (hint : ∀ p ∈ st.positions.filter
        (fun p => decide (0 < p.quantity ∧ 1 < p.leverage)),
      _calculate_position_interest params now p = 0)
    (hlevel : (st.account.current_cash + monitor_pnl prices
        (st.positions.filter
          (fun p => decide (0 < p.quantity ∧ 1 < p.leverage)))) /
        st.account.margin_used < st.account.maintenance_margin_req) :
    (∃ os, (_check_account_margin params prices now st).orders =
        st.orders ++ os ∧
      List.Forall₂ liq_order_for
        (st.positions.filter
          (fun p => decide (0 < p.quantity ∧ 1 < p.leverage))) os) ∧
    (∀ p ∈ st.positions.filter
        (fun p => decide (0 < p.quantity ∧ 1 < p.leverage)),
      ∃ p2, findPos (_check_account_margin params prices now st).positions
          p.symbol p.market = some p2 ∧ p2.quantity = 0 ∧ p2.side = none)
    := by
  cases hE : (st.positions.filter
      (fun p => decide (0 < p.quantity ∧ 1 < p.leverage))).isEmpty with
  | true =>
    have hL : st.positions.filter
        (fun p => decide (0 < p.quantity ∧ 1 < p.leverage)) = [] :=
      List.isEmpty_iff.mp hE
    rw [hL]
    have hres : _check_account_margin params prices now st = st := by
      simp only [_check_account_margin, hL, List.isEmpty_nil, if_true]
    rw [hres]
    exact ⟨⟨[], by simp, .nil⟩, by simp⟩
  | false =>
    have hres : _check_account_margin params prices now st =
        _liquidate_positions params prices now st
          (st.positions.filter
            (fun p => decide (0 < p.quantity ∧ 1 < p.leverage))) := by
      simp only [_check_account_margin, hE, Bool.false_eq_true, if_false,
        if_neg (not_le.mpr hmargin), if_pos hlevel]
    have hmemL : ∀ p ∈ st.positions.filter
        (fun p => decide (0 < p.quantity ∧ 1 < p.leverage)),
        0 < p.quantity ∧ 1 < p.leverage := by
      intro p hp
      exact of_decide_eq_true (List.mem_filter.mp hp).2
    have hfindL : ∀ p ∈ st.positions.filter
        (fun p => decide (0 < p.quantity ∧ 1 < p.leverage)),
        findPos st.positions p.symbol p.market = some p := by
      intro p hp
      exact findPos_of_mem_nodup st.positions p hnd
        (List.mem_filter.mp hp).1
    have hndL : ((st.positions.filter
        (fun p => decide (0 < p.quantity ∧ 1 < p.leverage))).map
          Position.symbol).Nodup :=
      List.Nodup.sublist
        (List.Sublist.map Position.symbol (List.filter_sublist _)) hnd
    obtain ⟨⟨os, hords, hrel⟩, hfinds, _⟩ := liquidate_spec params prices
      now (st.positions.filter
        (fun p => decide (0 < p.quantity ∧ 1 < p.leverage))) st hfindL
      (fun p hp => (hmemL p hp).1) (fun p hp => (hmemL p hp).2) hside
      (fun p hp => (hpr p hp).imp (fun pr h => h.1)) hint hndL
    rw [hres]
    refine ⟨⟨os, hords, hrel⟩, ?_⟩
    intro p hp
    exact ⟨liq_closed p, hfinds p hp, rfl, rfl⟩

/-- Crypto parameters used in the margin-sweep witness. -/
def c2_params : CryptoParams :=
  { taker_fee_rate := 0, interest_rate_hourly := 0, max_leverage := 10,
    min_order_quantity := 0 }

/-- Underwater 2x LONG: entry 100, quoted 60. -/
def c2_pos : Position :=
  { symbol := "BTC", name := "BTC", market := "CRYPTO", quantity := 1,
    available_quantity := 1, avg_cost := 100, leverage := 2,
    side := some .LONG, accumulated_interest := 0,
    last_interest_time := some 0 }

/-- Account with margin_used 50 and cash 10 holding the underwater LONG. -/
def c2_st : TradeState :=
  { account := { current_cash := 10, margin_used := 50,
                 maintenance_margin_req := 1 / 2 },
    positions := [c2_pos], orders := [], trades := [] }

/-- Oracle quoting every symbol at 60. -/
def c2_prices : String → Option ℚ := fun _ => some 60

theorem margin_sweep_liquidates_all_witness :
    (0 < c2_st.account.margin_used ∧
      (c2_st.account.current_cash + monitor_pnl c2_prices
          (c2_st.positions.filter
            (fun p => decide (0 < p.quantity ∧ 1 < p.leverage)))) /
        c2_st.account.margin_used < c2_st.account.maintenance_margin_req) ∧
    (∃ os, (_check_account_margin c2_params c2_prices 0 c2_st).orders =
        c2_st.orders ++ os ∧
      List.Forall₂ liq_order_for
        (c2_st.positions.filter
          (fun p => decide (0 < p.quantity ∧ 1 < p.leverage))) os) ∧
    (∀ p ∈ c2_st.positions.filter
        (fun p => decide (0 < p.quantity ∧ 1 < p.leverage)),
      ∃ p2, findPos (_check_account_margin c2_params c2_prices 0
          c2_st).positions p.symbol p.market = some p2 ∧
        p2.quantity = 0 ∧ p2.side = none) := by
  have hL : c2_st.positions.filter
      (fun p => decide (0 < p.quantity ∧ 1 < p.leverage)) = [c2_pos] := by
    norm_num [c2_st, c2_pos, List.filter]
  have hmargin : (0 : ℚ) < c2_st.account.margin_used := by norm_num [c2_st]
  have hlevel : (c2_st.account.current_cash + monitor_pnl c2_prices
      (c2_st.positions.filter
        (fun p => decide (0 < p.quantity ∧ 1 < p.leverage)))) /
      c2_st.account.margin_used < c2_st.account.maintenance_margin_req := by
    rw [hL]
    norm_num +decide [monitor_pnl, c2_prices, c2_pos, c2_st]
  refine ⟨⟨hmargin, hlevel⟩,
    margin_sweep_liquidates_all c2_params c2_prices 0 c2_st ?_ hmargin ?_
      ?_ ?_ hlevel⟩
  · simp [c2_st]
  · rw [hL]
    intro p hp
    rw [List.mem_singleton.mp hp]
    exact Or.inl rfl
  · rw [hL]
    intro p hp
    rw [List.mem_singleton.mp hp]
    exact ⟨60, rfl, by norm_num⟩
  · rw [hL]
    intro p hp
    rw [List.mem_singleton.mp hp]
    norm_num [_calculate_position_interest, c2_pos, c2_params]
